import Mathlib

/-!
# Workflow execution engine and scheduler: a shallow embedding

This file embeds the workflow execution engine and its companion scheduler
(`executeWorkflow` / `buildExecutionGraph` / `executeNode` and the per-type
node handlers from `src/components/slack-integration.tsx`, and the
`WorkflowScheduler` class; the scheduler's copies of `runWorkflow`,
`buildExecutionGraph` and `executeNode` are textually identical to the
former except that the scheduler's `executeNode` lacks the `slack` case)
into Lean, and proves or refutes the specification's claims about them.

JavaScript objects are modelled as association lists with in-place update
(`alistSet`), JSON-like values as the inductive `JVal`, `async` suspension
as an explicit count of milliseconds handed to `setTimeout`, and sources of
nondeterminism (`new Date()`, `Math.random()`, the Slack client) as fields
of an ambient `Env` record.  Possibly non-terminating recursion
(`executeNode` has no cycle guard) is given explicit fuel; `none` means the
fuel ran out.
-/

set_option autoImplicit false

namespace Depo

universe u v

/-! ## Association lists: the model of JavaScript objects and Maps -/

/-- `alistGet l k` is `l[k]`: the value at the first entry with key `k`. -/
def alistGet {κ : Type u} {α : Type v} [DecidableEq κ] : List (κ × α) → κ → Option α
  | [], _ => none
  | (k, v) :: rest, key => if k = key then some v else alistGet rest key

/-- `alistSet l k v` is `l[k] = v`: replace the first entry with key `k` in
place, or append a new entry when the key is absent (JavaScript object
assignment preserves first-insertion order). -/
def alistSet {κ : Type u} {α : Type v} [DecidableEq κ] : List (κ × α) → κ → α → List (κ × α)
  | [], k, v => [(k, v)]
  | (k', v') :: rest, k, v =>
    if k' = k then (k, v) :: rest else (k', v') :: alistSet rest k v

/-- `alistErase l k` removes every entry with key `k` (model of `Map.delete`
on states whose keys are distinct). -/
def alistErase {κ : Type u} {α : Type v} [DecidableEq κ] (l : List (κ × α)) (k : κ) :
    List (κ × α) :=
  l.filter (fun p => p.1 ≠ k)

@[simp] theorem alistGet_nil {κ : Type u} {α : Type v} [DecidableEq κ] (k : κ) :
    alistGet ([] : List (κ × α)) k = none := rfl

@[simp] theorem alistGet_cons {κ : Type u} {α : Type v} [DecidableEq κ]
    (k' : κ) (v : α) (l : List (κ × α)) (k : κ) :
    alistGet ((k', v) :: l) k = if k' = k then some v else alistGet l k := rfl

theorem alistGet_set_self {κ : Type u} {α : Type v} [DecidableEq κ]
    (l : List (κ × α)) (k : κ) (v : α) : alistGet (alistSet l k v) k = some v := by
  induction l with
  | nil => simp [alistSet, alistGet]
  | cons p rest ih =>
    obtain ⟨k', v'⟩ := p
    by_cases h : k' = k <;> simp [alistSet, alistGet, h, ih]

theorem alistGet_set_ne {κ : Type u} {α : Type v} [DecidableEq κ]
    (l : List (κ × α)) (k k' : κ) (v : α) (h : k ≠ k') :
    alistGet (alistSet l k v) k' = alistGet l k' := by
  induction l with
  | nil => simp [alistSet, alistGet, h]
  | cons p rest ih =>
    obtain ⟨k₀, v₀⟩ := p
    by_cases h₀ : k₀ = k
    · subst h₀; simp [alistSet, alistGet, h]
    · simp [alistSet, alistGet, h₀, ih]

theorem alistGet_erase_self {κ : Type u} {α : Type v} [DecidableEq κ]
    (l : List (κ × α)) (k : κ) : alistGet (alistErase l k) k = none := by
  induction l with
  | nil => rfl
  | cons p rest ih =>
    obtain ⟨k', v'⟩ := p
    by_cases h : k' = k
    · subst h; simpa [alistErase, List.filter] using ih
    · simpa [alistErase, List.filter, h] using ih

theorem alistGet_erase_ne {κ : Type u} {α : Type v} [DecidableEq κ]
    (l : List (κ × α)) (k k' : κ) (h : k ≠ k') :
    alistGet (alistErase l k) k' = alistGet l k' := by
  induction l with
  | nil => rfl
  | cons p rest ih =>
    obtain ⟨k₀, v₀⟩ := p
    by_cases h₀ : k₀ = k
    · subst h₀
      have hdrop : alistErase ((k₀, v₀) :: rest) k₀ = alistErase rest k₀ := by
        simp [alistErase, List.filter]
      rw [hdrop, ih, alistGet_cons, if_neg h]
    · by_cases h₁ : k₀ = k'
      · subst h₁; simp [alistErase, List.filter, h₀, alistGet]
      · simp [alistErase, List.filter, h₀, alistGet, h₁] at ih ⊢
        exact ih

/-- Setting a key that is absent from the list appends the entry. -/
theorem alistSet_of_not_mem {κ : Type u} {α : Type v} [DecidableEq κ]
    (l : List (κ × α)) (k : κ) (v : α) (h : ∀ p ∈ l, p.1 ≠ k) :
    alistSet l k v = l ++ [(k, v)] := by
  induction l with
  | nil => rfl
  | cons p rest ih =>
    obtain ⟨k', v'⟩ := p
    have hk : k' ≠ k := h (k', v') (List.mem_cons_self _ _)
    simp only [alistSet, if_neg hk, List.cons_append, List.cons.injEq, true_and]
    exact ih (fun q hq => h q (List.mem_cons_of_mem _ hq))

theorem alistErase_key_ne {κ : Type u} {α : Type v} [DecidableEq κ]
    (l : List (κ × α)) (k : κ) : ∀ p ∈ alistErase l k, p.1 ≠ k := by
  intro p hp
  have := List.of_mem_filter hp
  simpa using this

/-! ## JSON-like values and the workflow data model -/

/-- JSON-like runtime values, the payloads the JavaScript engine passes
around (`result`, `context`, persisted `output`).  Objects are ordered
association lists, as in JavaScript. -/
inductive JVal : Type where
  | str : String → JVal
  | num : Nat → JVal
  | bool : Bool → JVal
  | arr : List JVal → JVal
  | obj : List (String × JVal) → JVal

/-- Shallow merge `\x7b...a, ...b\x7d`: every entry of `b` is assigned into `a`,
later keys overwriting earlier ones, insertion order preserved. -/
def objMergeFields (a b : List (String × JVal)) : List (String × JVal) :=
  b.foldl (fun acc p => alistSet acc p.1 p.2) a

/-- The `config` JSON of a node, restricted to the keys the engine reads
(`delayMs`, `to`, `channel`, `message`, `url`); `none` models an absent key
(`config?.k` yielding `undefined`). -/
structure NodeConfig where
  delayMs : Option Nat := none
  «to» : Option String := none
  channel : Option String := none
  message : Option String := none
  url : Option String := none
deriving DecidableEq

/-- A persisted workflow node as the engine reads it: the graph-local
identifier `nodeId`, the `type` tag, the display `title` and the `config`. -/
structure Node where
  nodeId : String
  type : String
  title : String
  config : NodeConfig := {}
deriving DecidableEq

/-- A persisted edge: `sourceId` and `targetId` are graph-local node ids. -/
structure Edge where
  sourceId : String
  targetId : String
deriving DecidableEq

/-- A workflow as loaded with its nodes and edges included. -/
structure Workflow where
  nodes : List Node
  edges : List Edge
  isActive : Bool := true

/-- The adjacency object built by `buildExecutionGraph`:
node id ↦ ordered list of child node ids. -/
def Graph : Type := List (String × List String)

/-! ## `buildExecutionGraph` (slack-integration.tsx:1125–1141, and the
identical `WorkflowScheduler.buildExecutionGraph`) -/

/-- The initialization loop: `nodes.forEach(node => \x7b graph[node.nodeId] = [] \x7d)`. -/
def initGraph (nodes : List Node) : Graph :=
  nodes.foldl (fun g n => alistSet g n.nodeId []) []

/-- One step of the edge loop:
`if (graph[edge.sourceId]) \x7b graph[edge.sourceId].push(edge.targetId) \x7d`
(an empty array is truthy in JavaScript, so the guard tests key presence). -/
def addEdge (g : Graph) (e : Edge) : Graph :=
  match alistGet g e.sourceId with
  | some l => alistSet g e.sourceId (l ++ [e.targetId])
  | none => g

/-- `buildExecutionGraph(nodes, edges)`: initialize every declared node id to
`[]`, then push each edge's target onto its source's list, in edge
declaration order. -/
def buildExecutionGraph (nodes : List Node) (edges : List Edge) : Graph :=
  edges.foldl addEdge (initGraph nodes)

theorem alistGet_initGraph (nodes : List Node) (k : String) :
    alistGet (initGraph nodes) k = if k ∈ nodes.map Node.nodeId then some [] else none := by
  suffices h : ∀ g : Graph,
      alistGet (nodes.foldl (fun g n => alistSet g n.nodeId []) g) k =
        if k ∈ nodes.map Node.nodeId then some [] else alistGet g k by
    exact h []
  induction nodes with
  | nil => intro g; simp
  | cons n rest ih =>
    intro g
    by_cases hk : n.nodeId = k
    · subst hk
      by_cases hmem : n.nodeId ∈ rest.map Node.nodeId <;>
        simp [List.foldl_cons, ih, hmem, alistGet_set_self]
    · simp [List.foldl_cons, ih, alistGet_set_ne _ _ _ _ hk, hk,
        Ne.symm hk]

/-- `addEdge` leaves every key other than the edge's source untouched. -/
theorem alistGet_addEdge_ne (g : Graph) (e : Edge) (k : String) (h : e.sourceId ≠ k) :
    alistGet (addEdge g e) k = alistGet g k := by
  unfold addEdge
  cases hg : alistGet g e.sourceId with
  | none => rfl
  | some l => exact alistGet_set_ne _ _ _ _ h

theorem alistGet_addEdge_self (g : Graph) (e : Edge) (l : List String)
    (h : alistGet g e.sourceId = some l) :
    alistGet (addEdge g e) e.sourceId = some (l ++ [e.targetId]) := by
  unfold addEdge
  rw [h]
  exact alistGet_set_self _ _ _

/-- The edge loop appends, to a key already present, exactly the targets of
the edges whose source is that key, in declaration order. -/
theorem alistGet_foldl_addEdge (edges : List Edge) (k : String) :
    ∀ (g : Graph) (l : List String), alistGet g k = some l →
      alistGet (edges.foldl addEdge g) k =
        some (l ++ (edges.filter (fun e => e.sourceId = k)).map Edge.targetId) := by
  induction edges with
  | nil => intro g l hg; simpa using hg
  | cons e rest ih =>
    intro g l hg
    by_cases hs : e.sourceId = k
    · subst hs
      have h1 : alistGet (addEdge g e) e.sourceId = some (l ++ [e.targetId]) :=
        alistGet_addEdge_self g e l hg
      have := ih (addEdge g e) (l ++ [e.targetId]) h1
      simpa [List.filter] using this
    · have h1 : alistGet (addEdge g e) k = some l := by
        rw [alistGet_addEdge_ne g e k hs]; exact hg
      have := ih (addEdge g e) l h1
      simpa [List.filter, hs] using this

/-! ## The Slack notifier collaborator (`SlackService`, part of the repo) -/

/-- What `slackService.sendMessage` returns: `\x7bsuccess, ts?, error?\x7d`. -/
structure SendResult where
  success : Bool
  ts : Option String := none
  error : Option String := none
deriving DecidableEq

/-- Outcome of the `await this.client.chat.postMessage(...)` call inside
`SlackService.sendMessage`: the API resolved with `ok = true`, resolved with
`ok = false`, or the promise rejected. -/
inductive ClientOutcome : Type where
  | ok (ts : Option String)
  | notOk (error : Option String)
  | thrown (msg : String)
deriving DecidableEq

/-- `SlackService.sendMessage`: returns `\x7bsuccess: false, error: 'Slack not
configured'\x7d` when no client/config is present; otherwise wraps the client
call, converting `ok = false` and any thrown error into
`\x7bsuccess: false, error\x7d`.  It never throws. -/
def sendMessage (configured : Bool) (client : ClientOutcome) : SendResult :=
  if ¬configured then { success := false, error := some "Slack not configured" }
  else
    match client with
    | .ok ts => { success := true, ts := ts }
    | .notOk e => { success := false, error := some (e.getD "Unknown error") }
    | .thrown m => { success := false, error := some m }

/-- Outcome of `await slackService.sendMessage(...)` as seen by
`executeSlack`: the promise resolved with a `SendResult`, or it rejected
(the `catch` branch of `executeSlack`). -/
inductive SendOutcome : Type where
  | returned (r : SendResult)
  | thrown (msg : String)
deriving DecidableEq

/-- Ambient sources of nondeterminism read by the node handlers:
`new Date().toISOString()` (`now`), `Math.random() > 0.5` (`rand`),
`Math.floor(Math.random() * 100)` (`records`), `slackService.isConfigured()`
(`slackConfigured`) and the outcome of `slackService.sendMessage`
(`slackSend`). -/
structure Env where
  now : String := "2024-01-01T00:00:00.000Z"
  rand : Bool := true
  records : Nat := 0
  slackConfigured : Bool := false
  slackSend : SendOutcome := .returned { success := true }

/-! ## Node handlers (slack-integration.tsx:1212–1328) -/

/-- `executeAction`: fixed 1000 ms simulated latency, then
`\x7baction, executed: true, timestamp\x7d`. -/
def executeAction (env : Env) (node : Node) : List (String × JVal) :=
  [("action", .str node.title), ("executed", .bool true), ("timestamp", .str env.now)]

/-- `executeCondition`: 500 ms latency, then a coin-flip `result`. -/
def executeCondition (env : Env) (node : Node) : List (String × JVal) :=
  [("condition", .str node.title), ("result", .bool env.rand), ("timestamp", .str env.now)]

/-- The milliseconds a `delay` node hands to `setTimeout`:
`node.config?.delayMs || 2000`.  JavaScript `||` takes the default whenever
the left side is falsy, so an explicit `0` also yields 2000. -/
def delayWaitMs (config : NodeConfig) : Nat :=
  match config.delayMs with
  | some n => if n = 0 then 2000 else n
  | none => 2000

/-- `executeDelay`: waits `delayWaitMs` ms, then returns
`\x7bdelay, delayed: true, duration, timestamp\x7d` with `duration` the same
`delayMs || 2000` value. -/
def executeDelay (env : Env) (node : Node) : List (String × JVal) :=
  [("delay", .str node.title), ("delayed", .bool true),
   ("duration", .num (delayWaitMs node.config)), ("timestamp", .str env.now)]

/-- `executeEmail`: 1500 ms latency, then `\x7bemail, sent: true, to, timestamp\x7d`. -/
def executeEmail (env : Env) (node : Node) : List (String × JVal) :=
  [("email", .str node.title), ("sent", .bool true),
   ("to", .str (node.config.«to».getD "unknown@example.com")), ("timestamp", .str env.now)]

/-- `executeDatabase`: 800 ms latency, then
`\x7bdatabase, operation: 'SELECT', records, timestamp\x7d`. -/
def executeDatabase (env : Env) (node : Node) : List (String × JVal) :=
  [("database", .str node.title), ("operation", .str "SELECT"),
   ("records", .num env.records), ("timestamp", .str env.now)]

/-- `executeSlack` (slack-integration.tsx:1266–1313): reads
`config?.channel || '#general'` and `config?.message || default`; when the
service is configured it awaits `sendMessage` — a resolved `SendResult`
yields `sent: true` with `realMessage: result.success` and
`timestamp: result.ts || now` (even when `success` is false), a rejected
promise is caught and yields `sent: false` with the error message; when the
service is not configured it returns the simulated result.  `config?.blocks`
is only forwarded to the notifier and is absorbed into the outcome. -/
def executeSlack (env : Env) (node : Node) : List (String × JVal) :=
  let channel := node.config.channel.getD "#general"
  let message := node.config.message.getD ("Workflow executed: " ++ node.title)
  if env.slackConfigured then
    match env.slackSend with
    | .returned result =>
      [("slack", .str node.title), ("sent", .bool true), ("channel", .str channel),
       ("message", .str message), ("realMessage", .bool result.success),
       ("timestamp", .str (result.ts.getD env.now))]
    | .thrown m =>
      [("slack", .str node.title), ("sent", .bool false), ("channel", .str channel),
       ("message", .str message), ("error", .str m), ("timestamp", .str env.now)]
  else
    [("slack", .str node.title), ("sent", .bool true), ("channel", .str channel),
     ("message", .str message), ("simulated", .bool true), ("timestamp", .str env.now)]

/-- `executeWebhook`: 1200 ms latency, then
`\x7bwebhook, url, status: 200, timestamp\x7d`. -/
def executeWebhook (env : Env) (node : Node) : List (String × JVal) :=
  [("webhook", .str node.title), ("url", .str (node.config.url.getD "https://example.com/webhook")),
   ("status", .num 200), ("timestamp", .str env.now)]

/-- The `switch (node.type)` dispatch at the head of `executeNode`. -/
def dispatchNode (env : Env) (node : Node) : List (String × JVal) :=
  match node.type with
  | "trigger" => [("triggered", .bool true), ("timestamp", .str env.now)]
  | "action" => executeAction env node
  | "condition" => executeCondition env node
  | "delay" => executeDelay env node
  | "email" => executeEmail env node
  | "database" => executeDatabase env node
  | "slack" => executeSlack env node
  | "webhook" => executeWebhook env node
  | _ => [("executed", .bool true), ("type", .str node.type)]

/-- The milliseconds each handler hands to `setTimeout` (its simulated
latency); a `trigger` and the permissive default return immediately. -/
def nodeWaitMs (node : Node) : Nat :=
  match node.type with
  | "trigger" => 0
  | "action" => 1000
  | "condition" => 500
  | "delay" => delayWaitMs node.config
  | "email" => 1500
  | "database" => 800
  | "slack" => 1500
  | "webhook" => 1200
  | _ => 0

/-- `getNodeById(nodeId, nodes)`: first node whose `nodeId` matches. -/
def getNodeById (nodeId : String) (nodes : List Node) : Option Node :=
  nodes.find? (fun node => node.nodeId == nodeId)

/-- `Object.values(graph)`. -/
def graphValues (g : Graph) : List (List String) :=
  g.map Prod.snd

/-! ## `executeNode` (slack-integration.tsx:1143–1210, and the identical
`WorkflowScheduler.executeNode` minus the `slack` case)

The child loop is embedded exactly as written, including the lookup pool
`Object.values(graph).length > 0 ? [] : []`, whose two branches are both
the empty array.  Recursion carries explicit fuel because the source has no
cycle guard; `none` models the non-terminating (out-of-fuel) case. -/

/-- The `for (const childNodeId of childNodes)` loop: look each child id up
in `Object.values(graph).length > 0 ? [] : []` (always the empty array),
call the recursive visit (`visit` is `executeNode` one fuel level down) when
found, skip silently when not, and stop the whole run on a `none`
(out-of-fuel) child. -/
def runChildren (visit : Node → List (String × JVal) → Option JVal) :
    List String → Graph → List (String × JVal) → Option (List JVal)
  | [], _, _ => some []
  | childNodeId :: rest, graph, mergedContext =>
    let pool : List Node := if 0 < (graphValues graph).length then [] else []
    match getNodeById childNodeId pool with
    | some childNode =>
      match visit childNode mergedContext with
      | none => none
      | some childResult =>
        match runChildren visit rest graph mergedContext with
        | none => none
        | some results => some (childResult :: results)
    | none => runChildren visit rest graph mergedContext

/-- One `executeNode(node, graph, context)` call: dispatch on `node.type`,
then for each id in `graph[node.nodeId] || []` look the child up and recurse
with `\x7b...context, ...result\x7d`, finally return
`\x7b...result, children: childResults\x7d`. -/
def executeNode (env : Env) : Nat → Node → Graph → List (String × JVal) → Option JVal
  | 0, _, _, _ => none
  | fuel + 1, node, graph, context =>
    let result := dispatchNode env node
    let childNodes := (alistGet graph node.nodeId).getD []
    match runChildren (fun child ctx => executeNode env fuel child graph ctx)
        childNodes graph (objMergeFields context result) with
    | none => none
    | some childResults => some (.obj (alistSet result "children" (.arr childResults)))

/-- The child-lookup pool is the empty list whichever branch the ternary
takes, so no child is ever found: the loop returns `[]` whatever the
recursive visit would do. -/
theorem runChildren_eq_nil (visit : Node → List (String × JVal) → Option JVal)
    (ids : List String) (graph : Graph) (ctx : List (String × JVal)) :
    runChildren visit ids graph ctx = some [] := by
  induction ids with
  | nil => rfl
  | cons i rest ih =>
    rw [runChildren]
    simpa [getNodeById] using ih

/-- With any fuel left, `executeNode` returns its own dispatch result with
an always-empty `children` array. -/
theorem executeNode_succ (env : Env) (fuel : Nat) (node : Node) (graph : Graph)
    (context : List (String × JVal)) :
    executeNode env (fuel + 1) node graph context =
      some (.obj (alistSet (dispatchNode env node) "children" (.arr []))) := by
  rw [executeNode, runChildren_eq_nil]

/-! ## Execution records and persistence (`db.execution`) -/

/-- The `status` column of an `Execution`. -/
inductive Status : Type where
  | running
  | completed
  | failed
deriving DecidableEq

/-- An `Execution` row as the engine reads and writes it. -/
structure ExecutionRecord where
  status : Status
  input : JVal
  output : Option JVal := none
  error : Option String := none
  startedAt : Nat
  completedAt : Option Nat := none

/-- `db.execution.create(\x7bdata: \x7bworkflowId, status: 'running', input\x7d\x7d)`:
every record starts `running` with no output, error or completion time. -/
def createExecution (input : JVal) (startedAt : Nat) : ExecutionRecord :=
  { status := .running, input := input, startedAt := startedAt }

/-- One `updateExecutionStatus(executionId, status, error?, output?)` call
as the engine issues it.  `error` distinguishes an omitted argument
(`none`, Prisma leaves the column), an explicit `null` (`some none`) and a
message (`some (some m)`); an omitted `output` (`none`) likewise leaves the
column. -/
structure UpdateCall where
  status : Status
  error : Option (Option String) := none
  output : Option JVal := none

/-- `updateExecutionStatus` (slack-integration.tsx:1330–1345): writes
`status`, writes `error`/`output` only when the arguments were supplied
(`undefined` is not persisted by Prisma), and sets `completedAt` to now
exactly when the new status is not `running`. -/
def updateExecutionStatus (rec : ExecutionRecord) (u : UpdateCall) (now : Nat) :
    ExecutionRecord :=
  { rec with
    status := u.status
    error := match u.error with
      | none => rec.error
      | some e => e
    output := match u.output with
      | none => rec.output
      | some v => some v
    completedAt := if u.status ≠ .running then some now else rec.completedAt }

/-! ## `executeWorkflow` (slack-integration.tsx:1104–1123, and the identical
`WorkflowScheduler.runWorkflow`) -/

/-- The `try` body of `executeWorkflow`: find the first `trigger` node
(throwing `'No trigger node found in workflow'` when there is none), build
the graph, and visit the trigger with empty context.  `some (.error e)` is a
caught exception, `some (.ok r)` the final result tree, `none`
non-termination (out of fuel). -/
def runWorkflowBody (env : Env) (fuel : Nat) (wf : Workflow) :
    Option (Except String JVal) :=
  match wf.nodes.find? (fun node => node.type == "trigger") with
  | none => some (.error "No trigger node found in workflow")
  | some triggerNode =>
    match executeNode env fuel triggerNode (buildExecutionGraph wf.nodes wf.edges) [] with
    | none => none
    | some result => some (.ok result)

/-- The `updateExecutionStatus` calls `executeWorkflow` issues: on success
`('completed', null, result)`, on a caught exception
`('failed', message)` with `output` omitted.  Exactly one call per
terminating run. -/
def executionUpdates (env : Env) (fuel : Nat) (wf : Workflow) :
    Option (List UpdateCall) :=
  match runWorkflowBody env fuel wf with
  | none => none
  | some (.ok result) => some [{ status := .completed, error := some none, output := some result }]
  | some (.error e) => some [{ status := .failed, error := some (some e) }]

/-- `executeWorkflow(workflow, executionId)` as a transformation of the
execution row: apply each issued update in order. -/
def executeWorkflow (env : Env) (fuel : Nat) (wf : Workflow) (rec : ExecutionRecord)
    (now : Nat) : Option ExecutionRecord :=
  match executionUpdates env fuel wf with
  | none => none
  | some updates => some (updates.foldl (fun r u => updateExecutionStatus r u now) rec)

/-! ## The manual "run now" endpoint
(`POST /api/workflows/[id]/execute`, slack-integration.tsx:1047–1102) -/

/-- A persistence operation against the `Execution` table, for stating
which records the endpoint creates or updates. -/
inductive PersistOp : Type where
  | createExec (input : JVal)
  | updateExec (u : UpdateCall)

/-- The "run now" handler: 404 when the workflow id is unknown, 400
`'Workflow is not active'` before anything is persisted when
`isActive` is false, otherwise create a `running` execution record, start
`executeWorkflow` in the background, and answer 202-style with
`'Workflow execution started'`.  The pair is (HTTP status, message);
the list collects every `db.execution` operation the request causes. -/
def postRun (env : Env) (fuel : Nat) (wf : Option Workflow) :
    (Nat × String) × List PersistOp :=
  match wf with
  | none => ((404, "Workflow not found"), [])
  | some workflow =>
    if workflow.isActive = false then
      ((400, "Workflow is not active"), [])
    else
      ((200, "Workflow execution started"),
        PersistOp.createExec (.obj []) ::
          ((executionUpdates env fuel workflow).getD []).map PersistOp.updateExec)

/-! ## Case-sensitive substring containment, for claims about error text -/

/-- `startsWithL pat l`: `pat` is an initial segment of `l`. -/
def startsWithL : List Char → List Char → Bool
  | [], _ => true
  | _ :: _, [] => false
  | a :: pat, b :: l => a = b && startsWithL pat l

/-- `containsSubL pat l`: `pat` occurs contiguously somewhere in `l`. -/
def containsSubL (pat : List Char) : List Char → Bool
  | [] => startsWithL pat []
  | b :: l => startsWithL pat (b :: l) || containsSubL pat l

/-- `containsSub pat s`: `pat` occurs in `s` (case-sensitive). -/
def containsSub (pat s : String) : Bool :=
  containsSubL pat.toList s.toList

/-! ## Cron validation and the scheduler (`WorkflowScheduler`) -/

def isDigitCh (c : Char) : Bool :=
  '0' ≤ c && c ≤ '9'

def digitsToNat (cs : List Char) : Nat :=
  cs.foldl (fun a c => a * 10 + (c.toNat - '0'.toNat)) 0

/-- Split a character list at every occurrence of `sep` (keeping empty
pieces, like `String.split`). -/
def splitOnCh (sep : Char) : List Char → List (List Char)
  | [] => [[]]
  | c :: rest =>
    if c = sep then [] :: splitOnCh sep rest
    else
      match splitOnCh sep rest with
      | [] => [[c]]
      | w :: ws => (c :: w) :: ws

/-- Parse a nonempty all-digit token to a number. -/
def parseNum? (cs : List Char) : Option Nat :=
  if cs ≠ [] && cs.all isDigitCh then some (digitsToNat cs) else none

/-- One `*`, number, or `a-b` range, with field bounds `lo..hi`. -/
def validRangeTok (lo hi : Nat) (cs : List Char) : Bool :=
  if cs = ['*'] then true
  else
    match splitOnCh '-' cs with
    | [a] =>
      match parseNum? a with
      | some n => lo ≤ n && n ≤ hi
      | none => false
    | [a, b] =>
      match parseNum? a, parseNum? b with
      | some x, some y => lo ≤ x && x ≤ y && y ≤ hi
      | _, _ => false
    | _ => false

/-- A range token optionally followed by `/step`. -/
def validElem (lo hi : Nat) (cs : List Char) : Bool :=
  match splitOnCh '/' cs with
  | [r] => validRangeTok lo hi r
  | [r, st] =>
    validRangeTok lo hi r &&
      (match parseNum? st with
       | some n => 0 < n
       | none => false)
  | _ => false

/-- A comma-separated list of elements. -/
def validField (lo hi : Nat) (cs : List Char) : Bool :=
  let parts := splitOnCh ',' cs
  parts ≠ [] && parts.all (validElem lo hi)

/-- Modelled from the spec: `cron.validate` comes from the external
`node-cron` package, which is not part of the repository.  The spec pins its
contract to "standard cron grammar (5-field: minute hour day month
weekday)", so this validator accepts exactly five whitespace-separated
fields, each a comma list of `*`, numbers or ranges with optional `/step`,
with the standard numeric bounds (0–59, 0–23, 1–31, 1–12, 0–7). -/
def cronValidate (s : String) : Bool :=
  match (splitOnCh ' ' s.toList).filter (fun f => f ≠ []) with
  | [mi, h, dom, mon, dow] =>
    validField 0 59 mi && validField 0 23 h && validField 1 31 dom &&
      validField 1 12 mon && validField 0 7 dow
  | _ => false

/-- A `cron.ScheduledTask`: its cron expression and whether `start()` has
been called more recently than `stop()`. -/
structure SchedTask where
  schedule : String
  running : Bool
deriving DecidableEq

/-- One entry of the scheduler's `scheduledWorkflows` map
(`ScheduledWorkflow \x7bid, workflowId, schedule, task\x7d`, with the task
referenced by identity). -/
structure ScheduledBinding where
  schedule : String
  taskId : Nat
deriving DecidableEq

/-- The scheduler's process-local state: the `workflowId ↦ binding` map, the
identity store of every `cron.schedule` task ever created, and a fresh-id
counter for task identities. -/
structure SchedState where
  bindings : List (String × ScheduledBinding) := []
  tasks : List (Nat × SchedTask) := []
  nextTaskId : Nat := 0

/-- `task.stop()` / `task.start()` on the task with the given identity. -/
def setTaskRunning : List (Nat × SchedTask) → Nat → Bool → List (Nat × SchedTask)
  | [], _, _ => []
  | (k, t) :: rest, tid, r =>
    if k = tid then (k, { t with running := r }) :: setTaskRunning rest tid r
    else (k, t) :: setTaskRunning rest tid r

/-- `unscheduleWorkflow(workflowId)` (part_003): if a binding exists, stop
its task and delete the map entry; otherwise do nothing. -/
def unscheduleWorkflow (s : SchedState) (workflowId : String) : SchedState :=
  match alistGet s.bindings workflowId with
  | some b =>
    { s with
      tasks := setTaskRunning s.tasks b.taskId false
      bindings := alistErase s.bindings workflowId }
  | none => s

theorem alistGet_setTaskRunning_self (tasks : List (Nat × SchedTask)) (tid : Nat)
    (r : Bool) (t : SchedTask) (h : alistGet tasks tid = some t) :
    alistGet (setTaskRunning tasks tid r) tid = some { t with running := r } := by
  induction tasks with
  | nil => simp [alistGet] at h
  | cons p rest ih =>
    obtain ⟨k, v⟩ := p
    by_cases hk : k = tid
    · subst hk
      simp [alistGet_cons] at h
      subst h
      simp [setTaskRunning, alistGet_cons]
    · simp only [alistGet_cons, if_neg hk] at h
      simp [setTaskRunning, hk, alistGet_cons, ih h]

theorem alistGet_setTaskRunning_ne (tasks : List (Nat × SchedTask)) (tid tid' : Nat)
    (r : Bool) (h : tid ≠ tid') :
    alistGet (setTaskRunning tasks tid r) tid' = alistGet tasks tid' := by
  induction tasks with
  | nil => rfl
  | cons p rest ih =>
    obtain ⟨k, v⟩ := p
    by_cases hk : k = tid
    · subst hk
      simp [setTaskRunning, alistGet_cons, h, ih]
    · simp [setTaskRunning, alistGet_cons, hk, ih]

/-- `scheduleWorkflow(workflowId, schedule)` (part_003): throw
`'Invalid cron expression: ...'` when `cron.validate` rejects (leaving the
state untouched — the pair returns the unchanged state alongside the
error); otherwise unschedule any existing binding, create a new stopped
task, store the binding, and start the task. -/
def scheduleWorkflow (s : SchedState) (workflowId schedule : String) :
    Except String Unit × SchedState :=
  if ¬cronValidate schedule then
    (.error ("Invalid cron expression: " ++ schedule), s)
  else
    let s1 := unscheduleWorkflow s workflowId
    let tid := s1.nextTaskId
    let s2 : SchedState :=
      { s1 with
        tasks := alistSet s1.tasks tid { schedule := schedule, running := false }
        nextTaskId := s1.nextTaskId + 1 }
    let s3 : SchedState :=
      { s2 with
        bindings := alistSet s2.bindings workflowId { schedule := schedule, taskId := tid } }
    (.ok (), { s3 with tasks := setTaskRunning s3.tasks tid true })

/-! ## Sample data used by witnesses and counterexamples -/

/-- A trigger node `T`. -/
def trigT : Node := { nodeId := "T", type := "trigger", title := "Trigger" }

/-- An action node `B`. -/
def actB : Node := { nodeId := "B", type := "action", title := "Action B" }

/-- A two-node workflow `T → B`. -/
def wfTB : Workflow :=
  { nodes := [trigT, actB], edges := [{ sourceId := "T", targetId := "B" }] }

/-- A workflow with no trigger node. -/
def wfNoTrig : Workflow := { nodes := [actB], edges := [] }

/-! ## The claims -/

/-- C5: for every node and edge list, `buildExecutionGraph` maps each
declared node id to the targets of the edges having it as source, in edge
declaration order, duplicates kept. -/
theorem buildExecutionGraph_adjacency (nodes : List Node) (edges : List Edge)
    (id : String) (h : id ∈ nodes.map Node.nodeId) :
    alistGet (buildExecutionGraph nodes edges) id =
      some ((edges.filter (fun e => e.sourceId = id)).map Edge.targetId) := by
  have h0 : alistGet (initGraph nodes) id = some [] := by
    rw [alistGet_initGraph]; simp [h]
  simpa using alistGet_foldl_addEdge edges id (initGraph nodes) [] h0

/-- C5 witness: on nodes `A, B` with the duplicate edge `A → B` declared
twice, `A`'s adjacency is `["B", "B"]`. -/
theorem buildExecutionGraph_adjacency_witness :
    alistGet
        (buildExecutionGraph
          [{ nodeId := "A", type := "trigger", title := "a" },
           { nodeId := "B", type := "action", title := "b" }]
          [{ sourceId := "A", targetId := "B" }, { sourceId := "A", targetId := "B" }])
        "A" = some ["B", "B"] := by
  have h := buildExecutionGraph_adjacency
    [{ nodeId := "A", type := "trigger", title := "a" },
     { nodeId := "B", type := "action", title := "b" }]
    [{ sourceId := "A", targetId := "B" }, { sourceId := "A", targetId := "B" }]
    "A" (by decide)
  simpa using h

/-- C1 (the code at the failing input): in workflow `T → B` the adjacency
of `T` is `["B"]`, yet `executeNode` on `T` returns `children: []` — the
child lookup `getNodeById(childNodeId, Object.values(graph).length > 0 ? []
: [])` searches an empty list on both branches of the ternary, so no child
is ever executed by either copy of the engine. -/
theorem executeNode_never_visits_children :
    alistGet (buildExecutionGraph wfTB.nodes wfTB.edges) "T" = some ["B"]
    ∧ executeNode {} 2 trigT (buildExecutionGraph wfTB.nodes wfTB.edges) [] =
        some (.obj [("triggered", .bool true),
                    ("timestamp", .str "2024-01-01T00:00:00.000Z"),
                    ("children", .arr [])]) :=
  ⟨rfl, rfl⟩

/-- `List.find?` returns the first element satisfying the predicate. -/
theorem find?_of_first {α : Type u} (p : α → Bool) :
    ∀ (l1 : List α) (t : α) (l2 : List α),
      (∀ u ∈ l1, p u = false) → p t = true →
      List.find? p (l1 ++ t :: l2) = some t := by
  intro l1
  induction l1 with
  | nil => intro t l2 _ ht; simp [List.find?, ht]
  | cons a rest ih =>
    intro t l2 hall ht
    have ha : p a = false := hall a (List.mem_cons_self _ _)
    simp only [List.cons_append, List.find?, ha]
    exact ih t l2 (fun u hu => hall u (List.mem_cons_of_mem _ hu)) ht

/-- C2 counterexample: the engine's message is
`'No trigger node found in workflow'`; the execution is persisted as failed
with that message, but the message does not contain the literal lowercase
substring `"no trigger"`. -/
theorem no_trigger_message_case_mismatch :
    executeWorkflow {} 1 wfNoTrig (createExecution (.obj []) 0) 5 =
      some { status := .failed, input := .obj [], output := none,
             error := some "No trigger node found in workflow",
             startedAt := 0, completedAt := some 5 }
    ∧ containsSub "no trigger" "No trigger node found in workflow" = false :=
  ⟨rfl, rfl⟩

/-- C2 (amended): a workflow with no trigger node is always persisted
`failed` with error `'No trigger node found in workflow'` — which contains
`"No trigger"` (capitalised; case-insensitively the spec's "no trigger") —
and when a trigger exists the traversal starts at the first node whose
`type` is `trigger`: the run's outcome is exactly `executeNode` applied to
that node with the built graph and empty context. -/
theorem executeWorkflow_trigger_location (env : Env) (fuel : Nat) (wf : Workflow)
    (input : JVal) (t0 now : Nat) :
    (wf.nodes.find? (fun n => n.type == "trigger") = none →
      executeWorkflow env fuel wf (createExecution input t0) now =
        some { status := .failed, input := input, output := none,
               error := some "No trigger node found in workflow",
               startedAt := t0, completedAt := some now }
      ∧ containsSub "No trigger" "No trigger node found in workflow" = true)
    ∧ (∀ (l1 : List Node) (t : Node) (l2 : List Node),
        wf.nodes = l1 ++ t :: l2 → t.type = "trigger" →
        (∀ u ∈ l1, u.type ≠ "trigger") →
        runWorkflowBody env fuel wf =
          (executeNode env fuel t (buildExecutionGraph wf.nodes wf.edges) []).map Except.ok) := by
  constructor
  · intro hno
    refine ⟨?_, rfl⟩
    simp [executeWorkflow, executionUpdates, runWorkflowBody, hno,
      updateExecutionStatus, createExecution]
  · intro l1 t l2 hsplit ht hl1
    have hfind : wf.nodes.find? (fun n => n.type == "trigger") = some t := by
      rw [hsplit]
      refine find?_of_first _ l1 t l2 ?_ ?_
      · intro u hu
        have := hl1 u hu
        simpa using this
      · simpa using ht
    rw [runWorkflowBody, hfind]
    cases hex : executeNode env fuel t (buildExecutionGraph wf.nodes wf.edges) [] <;>
      simp [hex]

/-- C2 witness: the triggerless workflow is persisted failed with the
`'No trigger...'` message, and in `T → B` the run is the visit of `T`. -/
theorem executeWorkflow_trigger_location_witness :
    (executeWorkflow {} 1 wfNoTrig (createExecution (.obj []) 0) 5 =
      some { status := .failed, input := .obj [], output := none,
             error := some "No trigger node found in workflow",
             startedAt := 0, completedAt := some 5 }
      ∧ containsSub "No trigger" "No trigger node found in workflow" = true)
    ∧ runWorkflowBody {} 2 wfTB =
        (executeNode {} 2 trigT (buildExecutionGraph wfTB.nodes wfTB.edges) []).map Except.ok :=
  ⟨(executeWorkflow_trigger_location {} 1 wfNoTrig (.obj []) 0 5).1 rfl,
   (executeWorkflow_trigger_location {} 2 wfTB (.obj []) 0 5).2 [] trigT [actB]
     rfl rfl (by simp)⟩

/-- C3: when an exception escapes the traversal the execution is persisted
`failed` with the exception's message and `completedAt` set, and the
`output` column is left untouched (absent on a fresh record, since the
failed update omits the `output` argument); `output` is persisted only on
the success path. -/
theorem executeWorkflow_failure_atomic (env : Env) (fuel : Nat) (wf : Workflow)
    (input : JVal) (t0 now : Nat) :
    (∀ e, runWorkflowBody env fuel wf = some (.error e) →
      executeWorkflow env fuel wf (createExecution input t0) now =
        some { status := .failed, input := input, output := none,
               error := some e, startedAt := t0, completedAt := some now })
    ∧ (∀ r, runWorkflowBody env fuel wf = some (.ok r) →
      executeWorkflow env fuel wf (createExecution input t0) now =
        some { status := .completed, input := input, output := some r,
               error := none, startedAt := t0, completedAt := some now }) := by
  constructor
  · intro e he
    simp [executeWorkflow, executionUpdates, he, updateExecutionStatus, createExecution]
  · intro r hr
    simp [executeWorkflow, executionUpdates, hr, updateExecutionStatus, createExecution]

/-- C3 witness: the triggerless workflow fails with the thrown message and
no output; the `T → B` workflow completes with its result tree persisted. -/
theorem executeWorkflow_failure_atomic_witness :
    executeWorkflow {} 1 wfNoTrig (createExecution (.obj []) 0) 7 =
      some { status := .failed, input := .obj [], output := none,
             error := some "No trigger node found in workflow",
             startedAt := 0, completedAt := some 7 }
    ∧ executeWorkflow {} 2 wfTB (createExecution (.obj []) 0) 7 =
      some { status := .completed, input := .obj [],
             output := some (.obj [("triggered", .bool true),
                                   ("timestamp", .str "2024-01-01T00:00:00.000Z"),
                                   ("children", .arr [])]),
             error := none, startedAt := 0, completedAt := some 7 } :=
  ⟨(executeWorkflow_failure_atomic {} 1 wfNoTrig (.obj []) 0 7).1
      "No trigger node found in workflow" rfl,
   (executeWorkflow_failure_atomic {} 2 wfTB (.obj []) 0 7).2
      (.obj [("triggered", .bool true),
             ("timestamp", .str "2024-01-01T00:00:00.000Z"),
             ("children", .arr [])]) rfl⟩

/-- C9: a record is created `running` with no completion time; a
terminating run issues exactly one status update, that update is never to
`running`, and the resulting record is terminal (`completed` or `failed`)
with `completedAt` set — one transition, never revisited. -/
theorem execution_single_transition (env : Env) (fuel : Nat) (wf : Workflow)
    (input : JVal) (t0 now : Nat) :
    (createExecution input t0).status = .running
    ∧ (createExecution input t0).completedAt = none
    ∧ ∀ us, executionUpdates env fuel wf = some us →
        us.length = 1
        ∧ (∀ u ∈ us, u.status ≠ .running)
        ∧ ∀ r, executeWorkflow env fuel wf (createExecution input t0) now = some r →
            (r.status = .completed ∨ r.status = .failed) ∧ r.completedAt = some now := by
  refine ⟨rfl, rfl, ?_⟩
  intro us hus
  unfold executionUpdates at hus
  cases hbody : runWorkflowBody env fuel wf with
  | none => rw [hbody] at hus; cases hus
  | some x =>
    rw [hbody] at hus
    cases x with
    | ok r0 =>
      simp only [Option.some.injEq] at hus
      subst hus
      refine ⟨rfl, by simp, ?_⟩
      intro r hr
      simp [executeWorkflow, executionUpdates, hbody, updateExecutionStatus] at hr
      subst hr
      simp [updateExecutionStatus]
    | error e =>
      simp only [Option.some.injEq] at hus
      subst hus
      refine ⟨rfl, by simp, ?_⟩
      intro r hr
      simp [executeWorkflow, executionUpdates, hbody, updateExecutionStatus] at hr
      subst hr
      simp [updateExecutionStatus]

/-- C9 witness: the triggerless run issues exactly the single failed
update, and the persisted record is terminal with `completedAt` set. -/
theorem execution_single_transition_witness :
    (createExecution (.obj []) 3).status = .running
    ∧ (createExecution (.obj []) 3).completedAt = none
    ∧ ([({ status := .failed,
           error := some (some "No trigger node found in workflow") } : UpdateCall)].length = 1
        ∧ (∀ u ∈ [({ status := .failed,
                     error := some (some "No trigger node found in workflow") } : UpdateCall)],
             u.status ≠ .running)
        ∧ ∀ r, executeWorkflow {} 1 wfNoTrig (createExecution (.obj []) 3) 9 = some r →
            (r.status = .completed ∨ r.status = .failed) ∧ r.completedAt = some 9) :=
  ⟨(execution_single_transition {} 1 wfNoTrig (.obj []) 3 9).1,
   (execution_single_transition {} 1 wfNoTrig (.obj []) 3 9).2.1,
   (execution_single_transition {} 1 wfNoTrig (.obj []) 3 9).2.2
     [{ status := .failed, error := some (some "No trigger node found in workflow") }] rfl⟩

/-- A slack node used by C4's theorems. -/
def slackM : Node := { nodeId := "M", type := "slack", title := "Notify" }

/-- Environment in which Slack is configured and the dispatch fails softly:
the client resolves with `ok = false`, which `SlackService.sendMessage`
converts to `\x7bsuccess: false, error\x7d` (it never throws). -/
def envSoftFail : Env :=
  { slackConfigured := true,
    slackSend := .returned (sendMessage true (.notOk (some "channel_not_found"))) }

/-- Environment in which Slack is configured and the awaited send rejects. -/
def envThrown : Env :=
  { slackConfigured := true, slackSend := .thrown "network down" }

/-- C4 counterexample: a failed dispatch (the notifier's own
`sendMessage` returns `success: false`, as it does for every client
failure, since it catches all errors) is reported by `executeSlack` as
`sent: true` with `realMessage: false` and no `error` field — not as
`\x7bsent: false, error\x7d` as the claim states. -/
theorem executeSlack_soft_failure_not_reported :
    (sendMessage true (.notOk (some "channel_not_found"))).success = false
    ∧ alistGet (executeSlack envSoftFail slackM) "sent" = some (.bool true)
    ∧ alistGet (executeSlack envSoftFail slackM) "realMessage" = some (.bool false)
    ∧ alistGet (executeSlack envSoftFail slackM) "error" = none :=
  ⟨rfl, rfl, rfl, rfl⟩

/-- C4 (amended): `executeSlack` never fails the run (with fuel left, a
slack node's visit always succeeds, wrapping `executeSlack`'s own fields):
with no notifier configured it reports `sent: true, simulated: true`; when
configured and the awaited `sendMessage` resolves with result `r` it
reports `sent: true` with `realMessage: r.success` and no error field —
including when the dispatch failed (`r.success = false`, which is what
`SlackService.sendMessage` returns for every client failure, as it never
throws); only when the awaited call itself rejects does the `catch` branch
report `sent: false` with the error message. -/
theorem executeSlack_reporting (env : Env) (node : Node) (fuel : Nat)
    (graph : Graph) (ctx : List (String × JVal)) :
    (env.slackConfigured = false →
      alistGet (executeSlack env node) "sent" = some (.bool true)
      ∧ alistGet (executeSlack env node) "simulated" = some (.bool true))
    ∧ (∀ r, env.slackConfigured = true → env.slackSend = .returned r →
      alistGet (executeSlack env node) "sent" = some (.bool true)
      ∧ alistGet (executeSlack env node) "realMessage" = some (.bool r.success)
      ∧ alistGet (executeSlack env node) "error" = none)
    ∧ (∀ m, env.slackConfigured = true → env.slackSend = .thrown m →
      alistGet (executeSlack env node) "sent" = some (.bool false)
      ∧ alistGet (executeSlack env node) "error" = some (.str m))
    ∧ (∀ e, (sendMessage true (.notOk e)).success = false)
    ∧ (node.type = "slack" →
      executeNode env (fuel + 1) node graph ctx =
        some (.obj (alistSet (executeSlack env node) "children" (.arr [])))) := by
  refine ⟨?_, ?_, ?_, ?_, ?_⟩
  · intro hconf
    simp [executeSlack, hconf, alistGet]
  · intro r hconf hsend
    simp [executeSlack, hconf, hsend, alistGet]
  · intro m hconf hsend
    simp [executeSlack, hconf, hsend, alistGet]
  · intro e
    simp [sendMessage]
  · intro htype
    rw [executeNode_succ]
    simp [dispatchNode, htype]

/-- C4 witness: each reporting case at a concrete node and environment,
and the slack node's visit succeeding inside the engine. -/
theorem executeSlack_reporting_witness :
    (alistGet (executeSlack {} slackM) "sent" = some (.bool true)
      ∧ alistGet (executeSlack {} slackM) "simulated" = some (.bool true))
    ∧ (alistGet (executeSlack envSoftFail slackM) "sent" = some (.bool true)
      ∧ alistGet (executeSlack envSoftFail slackM) "realMessage" = some (.bool false)
      ∧ alistGet (executeSlack envSoftFail slackM) "error" = none)
    ∧ (alistGet (executeSlack envThrown slackM) "sent" = some (.bool false)
      ∧ alistGet (executeSlack envThrown slackM) "error" = some (.str "network down"))
    ∧ (sendMessage true (.notOk none)).success = false
    ∧ executeNode envThrown 1 slackM [] [] =
        some (.obj (alistSet (executeSlack envThrown slackM) "children" (.arr []))) :=
  ⟨(executeSlack_reporting {} slackM 0 [] []).1 rfl,
   (executeSlack_reporting envSoftFail slackM 0 [] []).2.1
     (sendMessage true (.notOk (some "channel_not_found"))) rfl rfl,
   (executeSlack_reporting envThrown slackM 0 [] []).2.2.1 "network down" rfl rfl,
   (executeSlack_reporting envThrown slackM 0 [] []).2.2.2.1 none,
   (executeSlack_reporting envThrown slackM 0 [] []).2.2.2.2 rfl⟩

/-- A delay node with an explicit `delayMs` of 100. -/
def delayD : Node :=
  { nodeId := "D", type := "delay", title := "Delay", config := { delayMs := some 100 } }

/-- C8 counterexample: an explicit `config.delayMs` of `0` does not suspend
for 0 ms — `delayMs || 2000` treats `0` as falsy, so the wait (and the
reported `duration`) is 2000 ms. -/
theorem delay_zero_defaults_to_2000 :
    ({ delayMs := some 0 } : NodeConfig).delayMs = some 0
    ∧ delayWaitMs { delayMs := some 0 } = 2000
    ∧ delayWaitMs { delayMs := some 0 } ≠ 0 :=
  ⟨rfl, rfl, by decide⟩

/-- C8 (amended): a delay node suspends its path for `delayMs || 2000`
milliseconds — the 2000 ms default applies when `delayMs` is absent *or*
explicitly 0 (JavaScript `||` on a falsy value), and any nonzero `delayMs`
is used as given — returning `delayed: true` with `duration` equal to the
waited milliseconds; `delayMs = 100` waits exactly 100 ms (≥ 100 ms). -/
theorem executeDelay_wait (env : Env) (node : Node) :
    alistGet (executeDelay env node) "delayed" = some (.bool true)
    ∧ alistGet (executeDelay env node) "duration" = some (.num (delayWaitMs node.config))
    ∧ (node.config.delayMs = none → delayWaitMs node.config = 2000)
    ∧ (node.config.delayMs = some 0 → delayWaitMs node.config = 2000)
    ∧ (∀ n, node.config.delayMs = some n → n ≠ 0 → delayWaitMs node.config = n)
    ∧ (node.type = "delay" → nodeWaitMs node = delayWaitMs node.config)
    ∧ (node.config.delayMs = some 100 →
        delayWaitMs node.config = 100 ∧ 100 ≤ delayWaitMs node.config) := by
  refine ⟨?_, ?_, ?_, ?_, ?_, ?_, ?_⟩
  · simp [executeDelay, alistGet]
  · simp [executeDelay, alistGet]
  · intro h; simp [delayWaitMs, h]
  · intro h; simp [delayWaitMs, h]
  · intro n h hn; simp [delayWaitMs, h, hn]
  · intro h; simp [nodeWaitMs, h]
  · intro h; simp [delayWaitMs, h]

/-- C8 witness: the `delayMs = 100` node reports `delayed: true`,
`duration = 100`, and its path's wait is 100 ≥ 100 ms. -/
theorem executeDelay_wait_witness :
    alistGet (executeDelay {} delayD) "delayed" = some (.bool true)
    ∧ alistGet (executeDelay {} delayD) "duration" = some (.num (delayWaitMs delayD.config))
    ∧ nodeWaitMs delayD = delayWaitMs delayD.config
    ∧ (delayWaitMs delayD.config = 100 ∧ 100 ≤ delayWaitMs delayD.config) :=
  ⟨(executeDelay_wait {} delayD).1,
   (executeDelay_wait {} delayD).2.1,
   (executeDelay_wait {} delayD).2.2.2.2.2.1 rfl,
   (executeDelay_wait {} delayD).2.2.2.2.2.2 rfl⟩

/-! ## Scheduler lemmas -/

theorem unscheduleWorkflow_nextTaskId (s : SchedState) (w : String) :
    (unscheduleWorkflow s w).nextTaskId = s.nextTaskId := by
  unfold unscheduleWorkflow
  cases alistGet s.bindings w <;> rfl

/-- A successful `scheduleWorkflow` call, written out: unschedule, create a
fresh stopped task, bind, start. -/
theorem scheduleWorkflow_valid_eq (s : SchedState) (wid e : String)
    (h : cronValidate e = true) :
    scheduleWorkflow s wid e =
      (.ok (),
       { bindings := alistSet (unscheduleWorkflow s wid).bindings wid
           { schedule := e, taskId := s.nextTaskId },
         tasks := setTaskRunning
           (alistSet (unscheduleWorkflow s wid).tasks s.nextTaskId
             { schedule := e, running := false })
           s.nextTaskId true,
         nextTaskId := s.nextTaskId + 1 }) := by
  have hnx := unscheduleWorkflow_nextTaskId s wid
  simp [scheduleWorkflow, h, hnx]

theorem unscheduleWorkflow_found (s : SchedState) (w : String) (b : ScheduledBinding)
    (h : alistGet s.bindings w = some b) :
    unscheduleWorkflow s w =
      { s with
        tasks := setTaskRunning s.tasks b.taskId false
        bindings := alistErase s.bindings w } := by
  unfold unscheduleWorkflow
  rw [h]

/-- Erasing a key and then setting it leaves exactly one entry with it. -/
theorem filter_alistSet_erase (l : List (String × ScheduledBinding)) (k : String)
    (v : ScheduledBinding) :
    (alistSet (alistErase l k) k v).filter (fun p => p.1 == k) = [(k, v)] := by
  rw [alistSet_of_not_mem _ _ _ (alistErase_key_ne l k), List.filter_append]
  have h1 : (alistErase l k).filter (fun p => p.1 == k) = [] := by
    induction l with
    | nil => rfl
    | cons p rest ih =>
      obtain ⟨k', v'⟩ := p
      by_cases hk : k' = k
      · subst hk
        simp [alistErase, List.filter, ih]
      · simp [alistErase, List.filter, hk, ih]
  rw [h1]
  simp

/-- C6: after two successful `scheduleWorkflow` calls for the same
`workflowId`, the map holds exactly one binding for it, carrying the second
expression and pointing at the second task; the first call's task has been
stopped and the second call's task is running. -/
theorem scheduleWorkflow_reschedule (s : SchedState) (wid e1 e2 : String)
    (h1 : cronValidate e1 = true) (h2 : cronValidate e2 = true) :
    (scheduleWorkflow s wid e1).1 = .ok ()
    ∧ (scheduleWorkflow (scheduleWorkflow s wid e1).2 wid e2).1 = .ok ()
    ∧ ((scheduleWorkflow (scheduleWorkflow s wid e1).2 wid e2).2.bindings.filter
        (fun p => p.1 == wid)).length = 1
    ∧ alistGet (scheduleWorkflow (scheduleWorkflow s wid e1).2 wid e2).2.bindings wid =
        some { schedule := e2, taskId := s.nextTaskId + 1 }
    ∧ alistGet (scheduleWorkflow (scheduleWorkflow s wid e1).2 wid e2).2.tasks s.nextTaskId =
        some { schedule := e1, running := false }
    ∧ alistGet (scheduleWorkflow (scheduleWorkflow s wid e1).2 wid e2).2.tasks
        (s.nextTaskId + 1) = some { schedule := e2, running := true } := by
  rw [scheduleWorkflow_valid_eq s wid e1 h1]
  set su := unscheduleWorkflow s wid with hsu
  set tid1 := s.nextTaskId with htid1
  set b1 : ScheduledBinding := { schedule := e1, taskId := tid1 } with hb1
  set s1 : SchedState :=
    { bindings := alistSet su.bindings wid b1
      tasks := setTaskRunning (alistSet su.tasks tid1 { schedule := e1, running := false })
        tid1 true
      nextTaskId := tid1 + 1 } with hs1
  have hget1 : alistGet s1.bindings wid = some b1 := alistGet_set_self _ _ _
  have hu2 : unscheduleWorkflow s1 wid =
      { s1 with
        tasks := setTaskRunning s1.tasks tid1 false
        bindings := alistErase s1.bindings wid } :=
    unscheduleWorkflow_found s1 wid b1 hget1
  rw [scheduleWorkflow_valid_eq s1 wid e2 h2, hu2]
  have hne : tid1 ≠ tid1 + 1 := by omega
  have hs1tid : alistGet s1.tasks tid1 = some { schedule := e1, running := true } := by
    have hset : alistGet (alistSet su.tasks tid1 { schedule := e1, running := false }) tid1 =
        some { schedule := e1, running := false } := alistGet_set_self _ _ _
    simpa using alistGet_setTaskRunning_self _ tid1 true _ hset
  refine ⟨rfl, rfl, ?_, ?_, ?_, ?_⟩
  · simpa using congrArg List.length (filter_alistSet_erase s1.bindings wid
      { schedule := e2, taskId := tid1 + 1 })
  · exact alistGet_set_self _ _ _
  · rw [alistGet_setTaskRunning_ne _ _ _ _ (Ne.symm hne),
      alistGet_set_ne _ _ _ _ (Ne.symm hne)]
    simpa using alistGet_setTaskRunning_self _ tid1 false _ hs1tid
  · have hset2 : alistGet
        (alistSet (setTaskRunning s1.tasks tid1 false) (tid1 + 1)
          { schedule := e2, running := false }) (tid1 + 1) =
        some { schedule := e2, running := false } := alistGet_set_self _ _ _
    simpa using alistGet_setTaskRunning_self _ (tid1 + 1) true _ hset2

/-- C6 witness: rescheduling `"w"` from `* * * * *` to `0 12 * * *` on the
empty scheduler leaves one binding, with the old task stopped and the new
one running. -/
theorem scheduleWorkflow_reschedule_witness :
    (scheduleWorkflow {} "w" "* * * * *").1 = .ok ()
    ∧ (scheduleWorkflow (scheduleWorkflow {} "w" "* * * * *").2 "w" "0 12 * * *").1 = .ok ()
    ∧ ((scheduleWorkflow (scheduleWorkflow {} "w" "* * * * *").2 "w" "0 12 * * *").2.bindings.filter
        (fun p => p.1 == "w")).length = 1
    ∧ alistGet (scheduleWorkflow (scheduleWorkflow {} "w" "* * * * *").2 "w" "0 12 * * *").2.bindings
        "w" = some { schedule := "0 12 * * *", taskId := 0 + 1 }
    ∧ alistGet (scheduleWorkflow (scheduleWorkflow {} "w" "* * * * *").2 "w" "0 12 * * *").2.tasks
        0 = some { schedule := "* * * * *", running := false }
    ∧ alistGet (scheduleWorkflow (scheduleWorkflow {} "w" "* * * * *").2 "w" "0 12 * * *").2.tasks
        (0 + 1) = some { schedule := "0 12 * * *", running := true } :=
  scheduleWorkflow_reschedule {} "w" "* * * * *" "0 12 * * *" (by decide) (by decide)

/-- C7 (the validator is spec-modelled): an invalid cron expression makes
`scheduleWorkflow` throw `'Invalid cron expression: ...'` before touching
any state — the scheduler's map, and in particular any prior binding for
that workflow, is exactly as before. -/
theorem scheduleWorkflow_invalid (s : SchedState) (wid e : String)
    (h : cronValidate e = false) :
    (scheduleWorkflow s wid e).1 = .error ("Invalid cron expression: " ++ e)
    ∧ (scheduleWorkflow s wid e).2 = s
    ∧ alistGet (scheduleWorkflow s wid e).2.bindings wid = alistGet s.bindings wid := by
  refine ⟨?_, ?_, ?_⟩ <;> simp [scheduleWorkflow, h]

/-- A scheduler state with one live binding for `"w"`. -/
def schedS0 : SchedState :=
  { bindings := [("w", { schedule := "* * * * *", taskId := 0 })],
    tasks := [(0, { schedule := "* * * * *", running := true })],
    nextTaskId := 1 }

/-- C7 witness: `"not-a-cron"` is rejected and the prior binding for `"w"`
is untouched. -/
theorem scheduleWorkflow_invalid_witness :
    (scheduleWorkflow schedS0 "w" "not-a-cron").1 =
      .error ("Invalid cron expression: " ++ "not-a-cron")
    ∧ (scheduleWorkflow schedS0 "w" "not-a-cron").2 = schedS0
    ∧ alistGet (scheduleWorkflow schedS0 "w" "not-a-cron").2.bindings "w" =
        alistGet schedS0.bindings "w" :=
  scheduleWorkflow_invalid schedS0 "w" "not-a-cron" (by decide)

/-- C10: the "run now" endpoint answers 400 `'Workflow is not active'` for
an inactive workflow, and performs no persistence operation at all — in
particular no `Execution` record, in any status, is created. -/
theorem postRun_inactive (env : Env) (fuel : Nat) (wf : Workflow)
    (h : wf.isActive = false) :
    postRun env fuel (some wf) = ((400, "Workflow is not active"), []) := by
  simp [postRun, h]

/-- An inactive workflow. -/
def wfInactive : Workflow := { nodes := [trigT], edges := [], isActive := false }

/-- C10 witness: the concrete inactive workflow gets the 400 response and
an empty persistence trace. -/
theorem postRun_inactive_witness :
    postRun {} 1 (some wfInactive) = ((400, "Workflow is not active"), []) :=
  postRun_inactive {} 1 wfInactive rfl

end Depo
